import Mathlib

/-!
Verification development for the `pywp` typed WordPress-API client
(`src/pywp/api_objects.py`).

The development shallowly embeds the polymorphic JSON codec
(`JsonHandler`, `JsonBase._deserialize` and its subclass overrides,
`JsonBase.create` / `_filter_unused_data`) and the generic collection
model (`ItemContainer`, `ItemList`, `ItemDict`).

Python dicts are modelled as insertion-ordered association lists with
distinct keys; Python exceptions are modelled with an explicit error
type and `Except`; `datetime.datetime` values are modelled at second
precision (the only precision the program ever parses or formats:
`parse_wp_dt` and `JsonHandler.dt_fmt` both use `%Y-%m-%dT%H:%M:%S`)
together with an optional UTC offset in minutes (`tzinfo` /
`utcoffset`); a `none` offset is a naive datetime.
-/

namespace Pywp

/-- Python exceptions that the embedded code can raise.  `fuelExhausted`
is an artifact of the fueled recursion in the decoder and corresponds to
no Python behaviour; all theorems about terminating runs use enough fuel
never to reach it. -/
inductive Err where
  | typeError
  | keyError
  | attributeError
  | assertionError
  | indexError
  | valueError
  | fuelExhausted
deriving DecidableEq, Repr

/-! ### Association-list model of Python dicts

Python 3.7+ dicts preserve insertion order and have unique keys.
`dlookup` is `d[k]` / `d.get(k)`, `dinsert` is `d[k] = v` (updating in
place preserves the key's position, a fresh key is appended at the end),
`dpop` is `d.pop(k)`. -/

/-- Lookup of a key in an association list (first occurrence). -/
def dlookup {K V : Type} [DecidableEq K] : List (K × V) → K → Option V
  | [], _ => none
  | (k', v') :: rest, k => if k' = k then some v' else dlookup rest k

/-- Python dict assignment `d[k] = v`: update the first occurrence in
place, else append at the end. -/
def dinsert {K V : Type} [DecidableEq K] : List (K × V) → K → V → List (K × V)
  | [], k, v => [(k, v)]
  | (k', v') :: rest, k, v =>
      if k' = k then (k, v) :: rest else (k', v') :: dinsert rest k v

/-- Python `d.pop(k)`: the value plus the dict with the entry removed,
or `none` (a `KeyError`) when the key is absent. -/
def dpop {K V : Type} [DecidableEq K] : List (K × V) → K → Option (V × List (K × V))
  | [], _ => none
  | (k', v') :: rest, k =>
      if k' = k then some (v', rest)
      else (dpop rest k).map (fun p => (p.1, (k', v') :: p.2))

/-- The keys of an association list, in insertion order. -/
def keysOf {K V : Type} (d : List (K × V)) : List K := d.map Prod.fst

/-! ### Second-precision timezone-aware datetimes

Mirrors the subset of `datetime.datetime` the program uses: calendar
fields at second precision plus `tzinfo` as an optional UTC offset in
minutes.  `astimezoneUTC` is `dt.astimezone(UTC)`, implemented — as in
CPython — by linearising the wall-clock time, subtracting the offset and
converting back to calendar fields (civil-from-days / days-from-civil). -/

structure DateTime where
  year : Int
  month : Nat
  day : Nat
  hour : Nat
  minute : Nat
  second : Nat
  /-- `utcoffset` in minutes; `none` models a naive datetime. -/
  offMinutes : Option Int
deriving DecidableEq, Repr

/-- Days since 1970-01-01 of a civil date (proleptic Gregorian). -/
def daysFromCivil (y : Int) (m d : Nat) : Int :=
  let y' : Int := y - (if m ≤ 2 then 1 else 0)
  let era : Int := (if 0 ≤ y' then y' else y' - 399) / 400
  let yoe : Nat := (y' - era * 400).toNat
  let mp : Nat := if m > 2 then m - 3 else m + 9
  let doy : Nat := (153 * mp + 2) / 5 + d - 1
  let doe : Nat := yoe * 365 + yoe / 4 - yoe / 100 + doy
  era * 146097 + (doe : Int) - 719468

/-- Civil date (year, month, day) of a days-since-epoch count. -/
def civilFromDays (z : Int) : Int × Nat × Nat :=
  let z' : Int := z + 719468
  let era : Int := (if 0 ≤ z' then z' else z' - 146096) / 146097
  let doe : Nat := (z' - era * 146097).toNat
  let yoe : Nat := (doe - doe / 1460 + doe / 36524 - doe / 146096) / 365
  let y : Int := (yoe : Int) + era * 400
  let doy : Nat := doe - (365 * yoe + yoe / 4 - yoe / 100)
  let mp : Nat := (5 * doy + 2) / 153
  let d : Nat := doy - (153 * mp + 2) / 5 + 1
  let m : Nat := if mp < 10 then mp + 3 else mp - 9
  (y + (if m ≤ 2 then 1 else 0), m, d)

/-- Wall-clock seconds since the epoch (ignoring the offset). -/
def toEpochSecs (dt : DateTime) : Int :=
  daysFromCivil dt.year dt.month dt.day * 86400
    + (dt.hour * 3600 + dt.minute * 60 + dt.second : Nat)

/-- The UTC datetime of an absolute seconds count. -/
def fromEpochSecsUTC (t : Int) : DateTime :=
  let days : Int := Int.ediv t 86400
  let secs : Nat := (Int.emod t 86400).toNat
  let c := civilFromDays days
  ⟨c.1, c.2.1, c.2.2, secs / 3600, secs % 3600 / 60, secs % 60, some 0⟩

/-- `dt.astimezone(UTC)`: subtract the UTC offset from the wall time.
Only ever applied to aware datetimes (`JsonHandler.encode` asserts
`o.tzinfo is not None` first). -/
def astimezoneUTC (dt : DateTime) : DateTime :=
  match dt.offMinutes with
  | none => dt
  | some o => fromEpochSecsUTC (toEpochSecs dt - o * 60)

/-- Zero-pad a natural number to two digits. -/
def pad2 (n : Nat) : String := if n < 10 then "0" ++ toString n else toString n

/-- Zero-pad a year to four digits (the program only meets years
1000-9999, for which CPython `%Y` produces exactly four digits). -/
def pad4 (y : Int) : String :=
  let n := y.toNat
  if n < 10 then "000" ++ toString n
  else if n < 100 then "00" ++ toString n
  else if n < 1000 then "0" ++ toString n
  else toString n

/-- `dt.strftime('%Y-%m-%dT%H:%M:%SZ')` (`JsonHandler.dt_fmt`). -/
def strftimeZ (dt : DateTime) : String :=
  pad4 dt.year ++ "-" ++ pad2 dt.month ++ "-" ++ pad2 dt.day ++ "T"
    ++ pad2 dt.hour ++ ":" ++ pad2 dt.minute ++ ":" ++ pad2 dt.second ++ "Z"

/-- Parse exactly `n` decimal digits from the front of a char list. -/
def parseDigits : Nat → List Char → Option (Nat × List Char)
  | 0, cs => some (0, cs)
  | n + 1, [] => (fun _ => none) n
  | n + 1, c :: cs =>
      if c.isDigit then
        (parseDigits n cs).map
          (fun p => ((c.toNat - '0'.toNat) * (10 ^ n) + p.1, p.2))
      else none

/-- Days in a month of the proleptic Gregorian calendar. -/
def daysInMonth (y : Int) (m : Nat) : Nat :=
  if m = 2 then (if y % 4 = 0 ∧ (y % 100 ≠ 0 ∨ y % 400 = 0) then 29 else 28)
  else if m = 4 ∨ m = 6 ∨ m = 9 ∨ m = 11 then 30
  else 31

/-- `datetime.datetime.strptime(s, '%Y-%m-%dT%H:%M:%SZ')`: parse the
fixed format the encoder emits and validate the field ranges (an
invalid string raises `ValueError`).  The result is naive, exactly as
in Python; `JsonHandler.decode` then attaches UTC. -/
def strptimeZ (s : String) : Except Err DateTime :=
  match parseDigits 4 s.toList with
  | none => .error .valueError
  | some (y, r1) =>
  match r1 with
  | '-' :: r2 =>
    match parseDigits 2 r2 with
    | none => .error .valueError
    | some (mo, r3) =>
    match r3 with
    | '-' :: r4 =>
      match parseDigits 2 r4 with
      | none => .error .valueError
      | some (d, r5) =>
      match r5 with
      | 'T' :: r6 =>
        match parseDigits 2 r6 with
        | none => .error .valueError
        | some (h, r7) =>
        match r7 with
        | ':' :: r8 =>
          match parseDigits 2 r8 with
          | none => .error .valueError
          | some (mi, r9) =>
          match r9 with
          | ':' :: r10 =>
            match parseDigits 2 r10 with
            | none => .error .valueError
            | some (sec, r11) =>
            match r11 with
            | ['Z'] =>
              if 1 ≤ mo ∧ mo ≤ 12 ∧ 1 ≤ d ∧ d ≤ daysInMonth y mo
                  ∧ h ≤ 23 ∧ mi ≤ 59 ∧ sec ≤ 59 then
                .ok ⟨y, mo, d, h, mi, sec, none⟩
              else .error .valueError
            | _ => .error .valueError
          | _ => .error .valueError
        | _ => .error .valueError
      | _ => .error .valueError
    | _ => .error .valueError
  | _ => .error .valueError

/-! ### The registered enumerations

`Status` and `MediaType` are `EnumMixin` enums with `enum.auto()`
values 1, 2, ... in declaration order. -/

/-- Members of the `Status` enum. -/
inductive StatusE where
  | publish | future | draft | pending | private_ | inherit
deriving DecidableEq, Repr

/-- `enum.auto()` value of a `Status` member. -/
def statusValue : StatusE → Int
  | .publish => 1 | .future => 2 | .draft => 3
  | .pending => 4 | .private_ => 5 | .inherit => 6

/-- `member.name` of a `Status` member. -/
def statusName : StatusE → String
  | .publish => "publish" | .future => "future" | .draft => "draft"
  | .pending => "pending" | .private_ => "private" | .inherit => "inherit"

/-- `getattr(Status, s)` restricted to the enum's members (other
attribute names are not reached by the code under study). -/
def statusOfName (s : String) : Option StatusE :=
  if s = "publish" then some .publish
  else if s = "future" then some .future
  else if s = "draft" then some .draft
  else if s = "pending" then some .pending
  else if s = "private" then some .private_
  else if s = "inherit" then some .inherit
  else none

/-- Members of the `MediaType` enum. -/
inductive MediaTypeE where
  | image | file
deriving DecidableEq, Repr

/-- `enum.auto()` value of a `MediaType` member. -/
def mediaTypeValue : MediaTypeE → Int
  | .image => 1 | .file => 2

/-- `member.name` of a `MediaType` member. -/
def mediaTypeName : MediaTypeE → String
  | .image => "image" | .file => "file"

/-- `getattr(MediaType, s)` restricted to the enum's members. -/
def mediaTypeOfName (s : String) : Option MediaTypeE :=
  if s = "image" then some .image
  else if s = "file" then some .file
  else none

/-! ### The `JsonBase` class hierarchy

`ClsName` enumerates every class reached by
`JsonBase._iter_subclasses()`.  `fieldsOf` lists each dataclass's
fields in declaration order (bases first, following the reverse MRO,
exactly as `dataclasses.fields` reports them). -/

inductive ClsName where
  | jsonBase | hasLinks | wpItem | taxonomy | publishItemBase | post
  | media | author | itemContainer | itemList | wpItems | postList
  | itemDict | taxonomies | postTaxonomyRel | imageFile | mediaDetails
deriving DecidableEq, Repr

/-- `cls.__qualname__`. -/
def qualname : ClsName → String
  | .jsonBase => "JsonBase"
  | .hasLinks => "HasLinks"
  | .wpItem => "WpItem"
  | .taxonomy => "Taxonomy"
  | .publishItemBase => "PublishItemBase"
  | .post => "Post"
  | .media => "Media"
  | .author => "Author"
  | .itemContainer => "ItemContainer"
  | .itemList => "ItemList"
  | .wpItems => "WpItems"
  | .postList => "PostList"
  | .itemDict => "ItemDict"
  | .taxonomies => "Taxonomies"
  | .postTaxonomyRel => "PostTaxonomyRel"
  | .imageFile => "ImageFile"
  | .mediaDetails => "MediaDetails"

/-- `JsonHandler.cls_to_str`: the dotted `module.qualname` identifier.
All repository classes live in module `pywp.api_objects`. -/
def identifier (c : ClsName) : String := "pywp.api_objects." ++ qualname c

/-- Fields of the three container dataclasses (`ItemContainer` and all
its subclasses declare no further fields). -/
def containerFields : List String :=
  ["items_by_id", "item_slug_map", "item_indices"]

/-- Fields shared by `PublishItemBase` (reverse MRO:
`JsonBase`, `HasLinks`, `HasDates`, then its own fields). -/
def publishItemFields : List String :=
  ["_links", "_embedded", "pub_date", "last_modified",
   "id", "slug", "status", "type", "link", "title", "author_id", "acf"]

/-- `dataclasses.fields(cls)` names, in order. -/
def fieldsOf : ClsName → List String
  | .jsonBase => []
  | .hasLinks => ["_links", "_embedded"]
  | .wpItem =>
      ["_links", "_embedded", "id", "count", "description", "link", "name",
       "slug", "taxonomy", "parent", "meta", "acf", "yoast_head",
       "yoast_head_json"]
  | .taxonomy =>
      ["_links", "_embedded", "name", "description", "slug", "types",
       "hierarchical", "rest_base", "rest_namespace"]
  | .publishItemBase => publishItemFields
  | .post => publishItemFields ++ ["taxonomy_names", "taxonomy_rels"]
  | .media =>
      publishItemFields ++ ["media_type", "mime_type", "media_details",
       "source_url"]
  | .author =>
      ["_links", "_embedded", "id", "name", "url", "description", "link",
       "slug", "acf"]
  | .itemContainer => containerFields
  | .itemList => containerFields
  | .wpItems => containerFields
  | .postList => containerFields
  | .itemDict => containerFields
  | .taxonomies => containerFields
  | .postTaxonomyRel => ["taxonomy", "term_id", "term_slug"]
  | .imageFile =>
      ["size_name", "width", "height", "file", "mime_type", "source_url"]
  | .mediaDetails => ["original", "sizes"]

/-- A class the codec's `str_to_cls` can resolve:
`iter_handled_classes` yields `Status`, `MediaType`,
`datetime.datetime`, then the `JsonBase` subclass walk. -/
inductive HandledCls where
  | hcStatus
  | hcMediaType
  | hcDatetime
  | hcRecord (c : ClsName)
deriving DecidableEq, Repr

/-- `cls_to_str` of a handled class. -/
def handledIdentifier : HandledCls → String
  | .hcStatus => "pywp.api_objects.Status"
  | .hcMediaType => "pywp.api_objects.MediaType"
  | .hcDatetime => "datetime.datetime"
  | .hcRecord c => identifier c

/-- `iter_handled_classes()` in yield order: the fixed enum/timestamp
pool, then the depth-first `_iter_subclasses` walk of `JsonBase` in
class-definition order. -/
def handledClasses : List HandledCls :=
  [.hcStatus, .hcMediaType, .hcDatetime,
   .hcRecord .jsonBase, .hcRecord .hasLinks, .hcRecord .wpItem,
   .hcRecord .taxonomy, .hcRecord .publishItemBase, .hcRecord .post,
   .hcRecord .media, .hcRecord .author, .hcRecord .itemContainer,
   .hcRecord .itemList, .hcRecord .wpItems, .hcRecord .postList,
   .hcRecord .itemDict, .hcRecord .taxonomies, .hcRecord .postTaxonomyRel,
   .hcRecord .imageFile, .hcRecord .mediaDetails]

/-- `JsonHandler.str_to_cls`: first handled class whose identifier
equals the string, else `None`. -/
def strToCls (s : String) : Option HandledCls :=
  handledClasses.find? (fun hc => handledIdentifier hc = s)

/-! ### The Python value universe

`PyVal` covers every runtime value the codec meets: JSON primitives,
lists and dicts, datetimes, enum members, and dataclass instances
(`pyObj cls fields`, the fields stored in declaration order — dataclass
equality is field-by-field equality). -/

inductive PyVal where
  | pyNone
  | pyBool (b : Bool)
  | pyInt (n : Int)
  | pyStr (s : String)
  | pyList (xs : List PyVal)
  | pyDict (xs : List (String × PyVal))
  | pyDatetime (dt : DateTime)
  | pyStatus (s : StatusE)
  | pyMediaType (m : MediaTypeE)
  | pyObj (c : ClsName) (fields : List (String × PyVal))

/-- A Python dict with string keys and arbitrary values. -/
abbrev Dict := List (String × PyVal)

/-! ### Dataclass construction and the `Record` capabilities -/

/-- For each declared field in order, its value in `data`; `none` when
some field is missing. -/
def allLookups (fields : List String) (data : Dict) : Option Dict :=
  fields.mapM (fun f => (dlookup data f).map (fun v => (f, v)))

/-- `cls(**data)`: succeeds exactly when the keyword set is the declared
field set (a missing field is a missing positional argument, an extra
key an unexpected keyword argument — both `TypeError`) and stores the
fields in declaration order. -/
def mkCls (c : ClsName) (data : Dict) : Except Err PyVal :=
  if data.all (fun kv => (fieldsOf c).contains kv.1) then
    match allLookups (fieldsOf c) data with
    | some fvs => .ok (.pyObj c fvs)
    | none => .error .typeError
  else .error .typeError

/-- Accumulator pass for `lastComponent`: restart the accumulator at
every dot, exactly as `split('.')` keeps only what follows the last
separator. -/
def lastComponentAux : List Char → List Char → List Char
  | [], acc => acc.reverse
  | c :: cs, acc =>
      if c = '.' then lastComponentAux cs []
      else lastComponentAux cs (c :: acc)

/-- The last dot-separated component of a dotted name:
`clsname.split('.')[-1]`. -/
def lastComponent (s : String) : String := ⟨lastComponentAux s.toList []⟩

/-- `JsonBase._deserialize(cls, data, decoder)`: pop `__class__`
(`KeyError` when absent), assert that its last dotted component equals
`cls.__qualname__`, then build `cls(**data)`.  (The decoder argument is
unused at the base level.) -/
def deserJsonBase (c : ClsName) (xs : Dict) : Except Err PyVal :=
  match dpop xs "__class__" with
  | none => .error .keyError
  | some (.pyStr clsname, rest) =>
      if lastComponent clsname = qualname c then mkCls c rest
      else .error .assertionError
  | some _ => .error .attributeError

namespace JsonBase

/-- `JsonBase._filter_unused_data`: the dict comprehension
`{key: data[key] for key in field_names}` — keeps exactly the declared
fields and raises `KeyError` when one is missing. -/
def filter_unused_data (c : ClsName) (data : Dict) : Except Err Dict :=
  match allLookups (fieldsOf c) data with
  | some fvs => .ok fvs
  | none => .error .keyError

/-- `JsonBase.create`: filter the raw dict to the declared fields, then
construct `cls(**data)`. -/
def create (c : ClsName) (data : Dict) : Except Err PyVal :=
  filter_unused_data c data >>= mkCls c

end JsonBase

/-! ### `JsonHandler.encode`

`_serialize` is shallow: it projects every declared field to the live
attribute value (`{attr: getattr(self, attr)}`), so nested Records,
enums and datetimes stay live objects inside the returned dict. -/

/-- `JsonHandler.encode`.  `ok none` models Python's implicit `None`
return for values the handler does not special-case; a naive datetime
fails the `assert o.tzinfo is not None` precondition. -/
def pyEncode (o : PyVal) : Except Err (Option PyVal) :=
  match o with
  | .pyObj c fs =>
      match allLookups (fieldsOf c) fs with
      | some fvs =>
          .ok (some (.pyDict (fvs ++ [("__class__", .pyStr (identifier c))])))
      | none => .error .attributeError
  | .pyStatus s =>
      .ok (some (.pyDict
        [("__class__", .pyStr "pywp.api_objects.Status"),
         ("name", .pyStr (statusName s)), ("value", .pyInt (statusValue s))]))
  | .pyMediaType m =>
      .ok (some (.pyDict
        [("__class__", .pyStr "pywp.api_objects.MediaType"),
         ("name", .pyStr (mediaTypeName m)),
         ("value", .pyInt (mediaTypeValue m))]))
  | .pyDatetime dt =>
      match dt.offMinutes with
      | none => .error .assertionError
      | some _ =>
          .ok (some (.pyDict
            [("__class__", .pyStr "datetime.datetime"),
             ("value", .pyStr (strftimeZ (astimezoneUTC dt)))]))
  | _ => .ok none

/-! ### `JsonHandler.decode`

`decode` receives the parsed value; `'__class__' in d` only makes sense
on containers (on a dict it tests key membership, on a list element
membership, on a string substring containment; on any other value it
raises `TypeError`).  Resolution failures and missing tags pass the
value through unchanged.  Recursion into `_deserialize` overrides is
fueled; every recursive call strictly decreases the fuel, and
`fuelExhausted` is never reached at the fuel values the theorems use. -/

/-- The type-tag value resolved as `str_to_cls` sees it: comparison of
an identifier string with a non-string tag value is simply unequal. -/
def strToClsV : PyVal → Option HandledCls
  | .pyStr s => strToCls s
  | _ => none

/-- Decode branch for `cls is datetime.datetime`: parse `d['value']`
with the fixed format and attach UTC. -/
def decodeDatetime (xs : Dict) : Except Err PyVal :=
  match dlookup xs "value" with
  | none => .error .keyError
  | some (.pyStr s) =>
      match strptimeZ s with
      | .ok dt => .ok (.pyDatetime { dt with offMinutes := some 0 })
      | .error e => .error e
  | some _ => .error .typeError

/-- Python `str.lower()`, character by character (`value.lower()`). -/
def strLower (s : String) : String := ⟨s.toList.map Char.toLower⟩

/-- Decode branch for an `EnumMixin` subclass: `cls.create(d['name'])`.
`EnumMixin.create` looks a string up with `getattr(cls, value.lower())`
(`AttributeError` for an unknown name) and returns any non-string value
unchanged. -/
def decodeStatus (xs : Dict) : Except Err PyVal :=
  match dlookup xs "name" with
  | none => .error .keyError
  | some (.pyStr s) =>
      match statusOfName (strLower s) with
      | some m => .ok (.pyStatus m)
      | none => .error .attributeError
  | some v => .ok v

/-- Decode branch for the `MediaType` enum; see `decodeStatus`. -/
def decodeMediaType (xs : Dict) : Except Err PyVal :=
  match dlookup xs "name" with
  | none => .error .keyError
  | some (.pyStr s) =>
      match mediaTypeOfName (strLower s) with
      | some m => .ok (.pyMediaType m)
      | none => .error .attributeError
  | some v => .ok v

/-- Whether one character list occurs inside another. -/
def charsContain (needle : List Char) : List Char → Bool
  | [] => needle.isPrefixOf []
  | c :: cs => needle.isPrefixOf (c :: cs) || charsContain needle cs

/-- `'__class__' in s` on a Python string is substring containment. -/
def strContainsClassKey (s : String) : Bool :=
  charsContain "__class__".toList s.toList

mutual

/-- `JsonHandler.decode`. -/
def pyDecode (fuel : Nat) (d : PyVal) : Except Err PyVal :=
  match d with
  | .pyDict xs =>
      match dlookup xs "__class__" with
      | none => .ok (.pyDict xs)
      | some tagv =>
          match strToClsV tagv with
          | none => .ok (.pyDict xs)
          | some hc =>
              match fuel with
              | 0 => .error .fuelExhausted
              | fuel' + 1 =>
                  match hc with
                  | .hcDatetime => decodeDatetime xs
                  | .hcStatus => decodeStatus xs
                  | .hcMediaType => decodeMediaType xs
                  | .hcRecord c => deserialize fuel' c xs
  | .pyList xs => .ok (.pyList xs)
  | .pyStr s =>
      if strContainsClassKey s then .error .typeError else .ok (.pyStr s)
  | _ => .error .typeError

/-- Dispatch `cls._deserialize(d, decoder)` to the most-derived
override of the resolved Record class. -/
def deserialize (fuel : Nat) (c : ClsName) (xs : Dict) : Except Err PyVal :=
  match fuel with
  | 0 => .error .fuelExhausted
  | fuel' + 1 =>
      match c with
      | .post => deserPost fuel' xs
      | .media => deserMedia fuel' xs
      | .publishItemBase => deserPublishItemBase fuel' .publishItemBase xs
      | .mediaDetails => deserMediaDetails fuel' xs
      | .itemContainer => deserItemContainer fuel' .itemContainer xs
      | .itemList => deserItemContainer fuel' .itemList xs
      | .wpItems => deserItemContainer fuel' .wpItems xs
      | .postList => deserItemContainer fuel' .postList xs
      | .itemDict => deserItemContainer fuel' .itemDict xs
      | .taxonomies => deserItemContainer fuel' .taxonomies xs
      | other => deserJsonBase other xs

/-- `Post._deserialize`: decode `taxonomy_rels` (unconditionally), then
continue with `PublishItemBase._deserialize`. -/
def deserPost (fuel : Nat) (xs : Dict) : Except Err PyVal :=
  match fuel with
  | 0 => .error .fuelExhausted
  | fuel' + 1 =>
      match dlookup xs "taxonomy_rels" with
      | none => .error .keyError
      | some v =>
          match pyDecode fuel' v with
          | .error e => .error e
          | .ok rels =>
              deserPublishItemBase fuel' .post (dinsert xs "taxonomy_rels" rels)

/-- `Media._deserialize`: decode `media_type` unless it is already a
`MediaType` member; for `media_details` the non-instance branch calls
the nonexistent attribute `decoder.decoder` — an `AttributeError`
faithfully preserved here; then continue with
`PublishItemBase._deserialize`. -/
def deserMedia (fuel : Nat) (xs : Dict) : Except Err PyVal :=
  match fuel with
  | 0 => .error .fuelExhausted
  | fuel' + 1 =>
      match dlookup xs "media_type" with
      | none => .error .keyError
      | some mt =>
          let step2 : Dict → Except Err PyVal := fun xs' =>
            match dlookup xs' "media_details" with
            | none => .error .keyError
            | some (.pyObj .mediaDetails fs) =>
                deserPublishItemBase fuel' .media
                  (dinsert xs' "media_details" (.pyObj .mediaDetails fs))
            | some _ => .error .attributeError
          match mt with
          | .pyMediaType m => step2 (dinsert xs "media_type" (.pyMediaType m))
          | _ =>
              match pyDecode fuel' mt with
              | .error e => .error e
              | .ok mt' => step2 (dinsert xs "media_type" mt')

/-- `PublishItemBase._deserialize`: `data['status'] =
decoder.decode(data['status'])` — unconditionally, whatever value the
field currently holds; then continue with `HasDates._deserialize`. -/
def deserPublishItemBase (fuel : Nat) (c : ClsName) (xs : Dict) :
    Except Err PyVal :=
  match fuel with
  | 0 => .error .fuelExhausted
  | fuel' + 1 =>
      match dlookup xs "status" with
      | none => .error .keyError
      | some st =>
          match pyDecode fuel' st with
          | .error e => .error e
          | .ok st' => deserHasDates fuel' c (dinsert xs "status" st')

/-- `HasDates._deserialize`: decode `pub_date` and `last_modified`
unless they are already datetimes, then continue with
`JsonBase._deserialize` (the next override in the MRO). -/
def deserHasDates (fuel : Nat) (c : ClsName) (xs : Dict) : Except Err PyVal :=
  match fuel with
  | 0 => .error .fuelExhausted
  | fuel' + 1 =>
      match dlookup xs "pub_date" with
      | none => .error .keyError
      | some pd =>
          let cont : Dict → Except Err PyVal := fun xs' =>
            match dlookup xs' "last_modified" with
            | none => .error .keyError
            | some (.pyDatetime dt) =>
                deserJsonBase c (dinsert xs' "last_modified" (.pyDatetime dt))
            | some lm =>
                match pyDecode fuel' lm with
                | .error e => .error e
                | .ok lm' => deserJsonBase c (dinsert xs' "last_modified" lm')
          match pd with
          | .pyDatetime dt => cont (dinsert xs "pub_date" (.pyDatetime dt))
          | _ =>
              match pyDecode fuel' pd with
              | .error e => .error e
              | .ok pd' => cont (dinsert xs "pub_date" pd')

/-- `ItemContainer._deserialize`: decode every `items_by_id` value that
is not already a `JsonBase` instance, assert each result is one, then
continue with `JsonBase._deserialize`. -/
def deserItemContainer (fuel : Nat) (c : ClsName) (xs : Dict) :
    Except Err PyVal :=
  match fuel with
  | 0 => .error .fuelExhausted
  | fuel' + 1 =>
      match dlookup xs "items_by_id" with
      | none => .error .keyError
      | some (.pyDict byId) =>
          match deserItemsById fuel' byId with
          | .error e => .error e
          | .ok byId' => deserJsonBase c (dinsert xs "items_by_id" (.pyDict byId'))
      | some _ => .error .attributeError

/-- The `for key, val in by_id.items()` loop of
`ItemContainer._deserialize`. -/
def deserItemsById (fuel : Nat) (l : List (String × PyVal)) :
    Except Err (List (String × PyVal)) :=
  match fuel with
  | 0 => .error .fuelExhausted
  | fuel' + 1 =>
      match l with
      | [] => .ok []
      | (k, v) :: rest =>
          let decoded : Except Err PyVal :=
            match v with
            | .pyObj c' fs => .ok (.pyObj c' fs)
            | other => pyDecode fuel' other
          match decoded with
          | .error e => .error e
          | .ok (.pyObj c' fs) =>
              match deserItemsById fuel' rest with
              | .error e => .error e
              | .ok rest' => .ok ((k, .pyObj c' fs) :: rest')
          | .ok _ => .error .assertionError

/-- `MediaDetails._deserialize`: decode `original` unless already an
`ImageFile`, decode the non-`ImageFile` values of `sizes`, then
continue with `JsonBase._deserialize`. -/
def deserMediaDetails (fuel : Nat) (xs : Dict) : Except Err PyVal :=
  match fuel with
  | 0 => .error .fuelExhausted
  | fuel' + 1 =>
      match dlookup xs "original" with
      | none => .error .keyError
      | some orig =>
          let cont : Dict → Except Err PyVal := fun xs' =>
            match dlookup xs' "sizes" with
            | none => .error .keyError
            | some (.pyDict sizes) =>
                match deserSizes fuel' sizes with
                | .error e => .error e
                | .ok sizes' =>
                    deserJsonBase .mediaDetails
                      (dinsert xs' "sizes" (.pyDict sizes'))
            | some _ => .error .attributeError
          match orig with
          | .pyObj .imageFile fs =>
              cont (dinsert xs "original" (.pyObj .imageFile fs))
          | _ =>
              match pyDecode fuel' orig with
              | .error e => .error e
              | .ok orig' => cont (dinsert xs "original" orig')

/-- The `for key, val in data['sizes'].items()` loop of
`MediaDetails._deserialize`. -/
def deserSizes (fuel : Nat) (l : List (String × PyVal)) :
    Except Err (List (String × PyVal)) :=
  match fuel with
  | 0 => .error .fuelExhausted
  | fuel' + 1 =>
      match l with
      | [] => .ok []
      | (k, v) :: rest =>
          let decoded : Except Err PyVal :=
            match v with
            | .pyObj .imageFile fs => .ok (.pyObj .imageFile fs)
            | other => pyDecode fuel' other
          match decoded with
          | .error e => .error e
          | .ok v' =>
              match deserSizes fuel' rest with
              | .error e => .error e
              | .ok rest' => .ok ((k, v') :: rest')

end

/-! ### The generic container model

`ItemContainer` is generic in the source: the contained Record type is
the class attribute `item_class`, the identity key is computed by the
abstract classmethod `_id_for_item` and the slug by the item's `slug`
attribute.  The model mirrors that genericity with a type `Item` of
already-constructed Records and two functions `idOf` (`_id_for_item`)
and `slugOf` (`item.slug`); building a Record from a raw dict
(`create_child` / `item_class.create`) is entity-specific field-mapping
glue outside the container component.

Mutation raising an exception is modelled by returning the container
state at the time the exception propagates (`Python` objects keep the
mutations already applied) paired with `Option Err`. -/

structure ItemContainer (K Item : Type) where
  items_by_id : List (K × Item)
  item_slug_map : List (String × K)
  item_indices : List K
deriving DecidableEq, Repr

namespace ItemContainer

variable {K Item : Type} [DecidableEq K]
variable (idOf : Item → K) (slugOf : Item → String)

/-- The container before any item is inserted. -/
def emptyC : ItemContainer K Item := ⟨[], [], []⟩

/-- `ItemContainer.append`: derive the identity, assert slug
uniqueness (the assert precedes every mutation, so a failed append
leaves the container unchanged), then insert into all three
structures. -/
def append (c : ItemContainer K Item) (child : Item) :
    ItemContainer K Item × Option Err :=
  let item_id := idOf child
  match dlookup c.item_slug_map (slugOf child) with
  | some _ => (c, some .assertionError)
  | none =>
      (⟨dinsert c.items_by_id item_id child,
        dinsert c.item_slug_map (slugOf child) item_id,
        c.item_indices ++ [item_id]⟩, none)

/-- `ItemContainer.extend`: repeated `append`; the first raised
exception propagates, keeping the successfully appended prefix. -/
def extend (c : ItemContainer K Item) :
    List Item → ItemContainer K Item × Option Err
  | [] => (c, none)
  | x :: rest =>
      match append idOf slugOf c x with
      | (c', none) => extend c' rest
      | (c', some e) => (c', some e)

/-- The loop body of `ItemContainer.create`: the item is stored under
its identity before the slug-uniqueness assert (the partially built
dicts are garbage-collected when the assert raises, so only the
success path returns a container). -/
def createStep (c : ItemContainer K Item) (item : Item) :
    Except Err (ItemContainer K Item) :=
  let item_id := idOf item
  let by_id' := dinsert c.items_by_id item_id item
  match dlookup c.item_slug_map (slugOf item) with
  | some _ => .error .assertionError
  | none =>
      .ok ⟨by_id', dinsert c.item_slug_map (slugOf item) item_id,
        c.item_indices ++ [item_id]⟩

/-- `ItemContainer.create` (bulkCreate): fold the loop body over one
page of items, starting from empty structures. -/
def create (data : List Item) : Except Err (ItemContainer K Item) :=
  data.foldlM (createStep idOf slugOf) emptyC

/-- `ItemContainer.get_by_id`: `self.items_by_id.get(id_, default)` —
`inl` is a found Record, `inr` the caller-supplied default. -/
def get_by_id {D : Type} (c : ItemContainer K Item) (id_ : K) (default : D) :
    Item ⊕ D :=
  match dlookup c.items_by_id id_ with
  | some v => .inl v
  | none => .inr default

/-- `ItemContainer.get_by_slug`: resolve slug → identity, then delegate
to `get_by_id`; a missing slug returns the default. -/
def get_by_slug {D : Type} (c : ItemContainer K Item) (slug : String)
    (default : D) : Item ⊕ D :=
  match dlookup c.item_slug_map slug with
  | none => .inr default
  | some id_ => get_by_id c id_ default

/-- Python list indexing `xs[i]`: negative indices count from the end,
anything out of range is an `IndexError` (`none`). -/
def pyIdx {α : Type} (xs : List α) (i : Int) : Option α :=
  if 0 ≤ i ∧ i < xs.length then xs.get? i.toNat
  else if i < 0 ∧ 0 ≤ i + xs.length then xs.get? (i + xs.length).toNat
  else none

/-- `ItemContainer.get_by_index`: `self.item_indices[ix]` (fatal
`IndexError` out of range) then `self.items_by_id[id_]` (fatal
`KeyError` when the identity is absent). -/
def get_by_index (c : ItemContainer K Item) (ix : Int) : Except Err Item :=
  match pyIdx c.item_indices ix with
  | none => .error .indexError
  | some id_ =>
      match dlookup c.items_by_id id_ with
      | some v => .ok v
      | none => .error .keyError

/-- One call in a client's interaction sequence. -/
inductive COp (Item : Type) where
  | appendOp (x : Item)
  | extendOp (xs : List Item)

/-- The items an operation tries to insert. -/
def opItems : COp Item → List Item
  | .appendOp x => [x]
  | .extendOp xs => xs

/-- All items a sequence of operations tries to insert, in order. -/
def opsItems (ops : List (COp Item)) : List Item :=
  (ops.map opItems).flatten

/-- Run one call against the container, keeping the state the mutation
left behind (an `AssertionError` aborts the call but not the object). -/
def runOp (c : ItemContainer K Item) : COp Item → ItemContainer K Item
  | .appendOp x => (append idOf slugOf c x).1
  | .extendOp xs => (extend idOf slugOf c xs).1

/-- Run a sequence of calls. -/
def runOps (c : ItemContainer K Item) (ops : List (COp Item)) :
    ItemContainer K Item :=
  ops.foldl (runOp idOf slugOf) c

/-- The consistency invariant claimed for the three co-located
structures: equal sizes, ordered identities present in the identity
mapping, and every slug resolving through `get_by_slug` to what
`get_by_id` returns for the mapped identity (which is present). -/
def Inv (c : ItemContainer K Item) : Prop :=
  c.item_indices.length = c.items_by_id.length
  ∧ c.items_by_id.length = c.item_slug_map.length
  ∧ (∀ k ∈ c.item_indices, k ∈ keysOf c.items_by_id)
  ∧ (∀ p ∈ c.item_slug_map, p.2 ∈ keysOf c.items_by_id
      ∧ get_by_slug c p.1 () = get_by_id c p.2 ())

instance (c : ItemContainer K Item) [DecidableEq Item] : Decidable (Inv c) := by
  unfold Inv; infer_instance

/-- The stronger inductive invariant actually maintained when all
inserted identity keys are distinct: the ordered sequence IS the key
sequence of the identity mapping, all keys and slugs are distinct, and
the slug mapping targets existing identities. -/
def SInv (c : ItemContainer K Item) : Prop :=
  c.item_indices = keysOf c.items_by_id
  ∧ (keysOf c.items_by_id).Nodup
  ∧ (keysOf c.item_slug_map).Nodup
  ∧ c.item_slug_map.length = c.items_by_id.length
  ∧ (∀ p ∈ c.item_slug_map, p.2 ∈ keysOf c.items_by_id)

end ItemContainer

namespace ItemList

variable {K Item : Type} [DecidableEq K]

/-- `ItemList.__getitem__` with an int key:
`self.items_by_id[self.item_indices[key]]`. -/
def getitem_int (c : ItemContainer K Item) (i : Int) : Except Err Item :=
  match ItemContainer.pyIdx c.item_indices i with
  | none => .error .indexError
  | some id_ =>
      match dlookup c.items_by_id id_ with
      | some v => .ok v
      | none => .error .keyError

/-- Python slice bound normalisation for `xs[a:b]` (no step). -/
def pySliceNorm (n : Nat) (i : Int) : Nat :=
  if i < 0 then (max 0 (i + n)).toNat else min i.toNat n

/-- Python `xs[a:b]`: the elements from the normalised lower bound up
to the normalised upper bound, clamped, never an error. -/
def pySlice {α : Type} (xs : List α) (a b : Int) : List α :=
  (xs.take (pySliceNorm xs.length b)).drop (pySliceNorm xs.length a)

/-- `ItemList.__getitem__` with a slice `a:b`: the identity slice
mapped through the identity store, in insertion order. -/
def getitem_slice (c : ItemContainer K Item) (a b : Int) :
    Except Err (List Item) :=
  (pySlice c.item_indices a b).mapM (fun id_ =>
    match dlookup c.items_by_id id_ with
    | some v => Except.ok v
    | none => Except.error Err.keyError)

/-- `ItemList.__iter__`: yield `items_by_id[ix]` for each ordered
identity. -/
def iterList (c : ItemContainer K Item) : Except Err (List Item) :=
  c.item_indices.mapM (fun id_ =>
    match dlookup c.items_by_id id_ with
    | some v => Except.ok v
    | none => Except.error Err.keyError)

end ItemList

namespace ItemDict

variable {K Item : Type} [DecidableEq K]

/-- `ItemDict.__getitem__`: direct `self.items_by_id[key]` — a fatal
`KeyError` for an unknown identity key, unlike the tolerant `get*`
accessors. -/
def getitem (c : ItemContainer K Item) (k : K) : Except Err Item :=
  match dlookup c.items_by_id k with
  | some v => .ok v
  | none => .error .keyError

end ItemDict

/-- Decidable equality of `Except` results, used to evaluate the model
on concrete inputs. -/
instance {ε α : Type} [DecidableEq ε] [DecidableEq α] :
    DecidableEq (Except ε α) := fun a b =>
  match a, b with
  | .error e, .error e' =>
      if h : e = e' then .isTrue (by rw [h])
      else .isFalse (fun he => h (Except.error.inj he))
  | .error _, .ok _ => .isFalse (fun he => Except.noConfusion he)
  | .ok _, .error _ => .isFalse (fun he => Except.noConfusion he)
  | .ok v, .ok v' =>
      if h : v = v' then .isTrue (by rw [h])
      else .isFalse (fun he => h (Except.ok.inj he))

/-! ### Concrete fixtures used by the theorems -/

/-- The UTC timestamp 2024-03-01T12:00:00+00:00 at second precision. -/
def dt2024 : DateTime := ⟨2024, 3, 1, 12, 0, 0, some 0⟩

/-- A naive timestamp (`tzinfo is None`). -/
def dtNaive : DateTime := ⟨2024, 3, 1, 12, 0, 0, none⟩

/-- An aware timestamp at UTC offset +90 minutes. -/
def dtPlus90 : DateTime := ⟨2024, 3, 1, 0, 30, 5, some 90⟩

/-- Fields of a populated `Post` instance, in declared order: the live
attribute values `_serialize` projects. -/
def post0Fields : Dict :=
  [("_links", .pyDict []), ("_embedded", .pyDict []),
   ("pub_date", .pyDatetime dt2024), ("last_modified", .pyDatetime dt2024),
   ("id", .pyInt 1), ("slug", .pyStr "hello-world"),
   ("status", .pyStatus .publish), ("type", .pyStr "post"),
   ("link", .pyStr "https://example.com/hello-world"),
   ("title", .pyStr "Hello"), ("author_id", .pyInt 1),
   ("acf", .pyList []), ("taxonomy_names", .pyList []),
   ("taxonomy_rels", .pyDict [])]

/-- The tagged dict `JsonHandler.encode` produces for that `Post`. -/
def post0Enc : Dict :=
  post0Fields ++ [("__class__", .pyStr "pywp.api_objects.Post")]

/-- Fields of a populated `WpItem` instance, in declared order. -/
def wp0Fields : Dict :=
  [("_links", .pyDict []), ("_embedded", .pyDict []), ("id", .pyInt 7),
   ("count", .pyInt 3), ("description", .pyStr "d"),
   ("link", .pyStr "https://example.com/term"), ("name", .pyStr "News"),
   ("slug", .pyStr "news"), ("taxonomy", .pyStr "category"),
   ("parent", .pyInt 0), ("meta", .pyList []), ("acf", .pyList []),
   ("yoast_head", .pyDict []), ("yoast_head_json", .pyDict [])]

/-- A tagged dict whose tag is foreign (a different dotted prefix) but
whose last component matches `WpItem.__qualname__`. -/
def wpForeignTagged : Dict :=
  wp0Fields ++ [("__class__", .pyStr "foreign.WpItem")]

/-- A tagged dict whose tag names a different registered class. -/
def wpWrongTagged : Dict :=
  wp0Fields ++ [("__class__", .pyStr "pywp.api_objects.Taxonomy")]

/-- A raw `PostTaxonomyRel` payload holding exactly the declared
fields, in declared order. -/
def rel0Clean : Dict :=
  [("taxonomy", .pyStr "category"), ("term_id", .pyInt 4),
   ("term_slug", .pyStr "news")]

/-- The same payload with an undeclared key prepended, as an upstream
API response routinely carries. -/
def rel0Extra : Dict := ("junk", .pyInt 9) :: rel0Clean

/-- Fields of a populated `Taxonomy` instance. -/
def tax0Fields : Dict :=
  [("_links", .pyDict []), ("_embedded", .pyDict []),
   ("name", .pyStr "Categories"), ("description", .pyStr ""),
   ("slug", .pyStr "category"), ("types", .pyList [.pyStr "post"]),
   ("hierarchical", .pyBool true), ("rest_base", .pyStr "categories"),
   ("rest_namespace", .pyStr "wp/v2")]

/-- Fields of a `Taxonomies` container holding that `Taxonomy` (the
identity key of a taxonomy is its slug). -/
def taxs0Fields : Dict :=
  [("items_by_id", .pyDict [("category", .pyObj .taxonomy tax0Fields)]),
   ("item_slug_map", .pyDict [("category", .pyStr "category")]),
   ("item_indices", .pyList [.pyStr "category"])]

/-! ### Association-list lemmas -/

theorem dlookup_eq_some_of_mem {K V : Type} [DecidableEq K] :
    ∀ (l : List (K × V)) (p : K × V), p ∈ l → (keysOf l).Nodup →
      dlookup l p.1 = some p.2 := by
  intro l
  induction l with
  | nil => intro p hp _; exact absurd hp (List.not_mem_nil p)
  | cons q rest ih =>
      intro p hp hnd
      rw [keysOf, List.map_cons, List.nodup_cons] at hnd
      rcases List.mem_cons.mp hp with h | h
      · subst h; simp [dlookup]
      · have hk : q.1 ≠ p.1 := by
          intro he
          exact hnd.1 (he ▸ List.mem_map_of_mem Prod.fst h)
        rw [dlookup, if_neg hk]
        exact ih p h hnd.2

theorem dlookup_isSome_iff {K V : Type} [DecidableEq K] :
    ∀ (l : List (K × V)) (k : K), (dlookup l k).isSome ↔ k ∈ keysOf l := by
  intro l
  induction l with
  | nil => intro k; simp [dlookup, keysOf]
  | cons q rest ih =>
      intro k
      rw [keysOf, List.map_cons]
      by_cases h : q.1 = k
      · subst h; simp [dlookup]
      · rw [dlookup, if_neg h, ih k, List.mem_cons]
        constructor
        · intro hk; exact Or.inr hk
        · intro hk
          rcases hk with he | hk
          · exact absurd he.symm h
          · exact hk

theorem dlookup_eq_none_iff {K V : Type} [DecidableEq K]
    (l : List (K × V)) (k : K) : dlookup l k = none ↔ k ∉ keysOf l := by
  rw [← dlookup_isSome_iff, Option.not_isSome_iff_eq_none]

theorem dinsert_of_not_mem {K V : Type} [DecidableEq K] :
    ∀ (l : List (K × V)) (k : K) (v : V), k ∉ keysOf l →
      dinsert l k v = l ++ [(k, v)] := by
  intro l
  induction l with
  | nil => intro k v _; rfl
  | cons q rest ih =>
      intro k v h
      rw [keysOf, List.map_cons, List.mem_cons] at h
      push_neg at h
      rw [dinsert, if_neg (fun he => h.1 he.symm), ih k v h.2]
      rfl

theorem keysOf_append {K V : Type} (l l' : List (K × V)) :
    keysOf (l ++ l') = keysOf l ++ keysOf l' := List.map_append _ _ _

/-! ### Preservation of the container invariant -/

namespace ItemContainer

variable {K Item : Type} [DecidableEq K]
variable (idOf : Item → K) (slugOf : Item → String)

theorem sInv_emptyC : SInv (emptyC : ItemContainer K Item) :=
  ⟨rfl, List.nodup_nil, List.nodup_nil, rfl, fun p hp => absurd hp (List.not_mem_nil p)⟩

theorem sInv_to_inv (c : ItemContainer K Item) (h : SInv c) : Inv c := by
  obtain ⟨h1, h2, h3, h4, h5⟩ := h
  refine ⟨?_, h4.symm, ?_, ?_⟩
  · rw [h1, keysOf, List.length_map]
  · intro k hk; rw [h1] at hk; exact hk
  · intro p hp
    refine ⟨h5 p hp, ?_⟩
    unfold get_by_slug
    rw [dlookup_eq_some_of_mem c.item_slug_map p hp h3]

/-- A failed `append` leaves the container unchanged. -/
theorem append_err (c c' : ItemContainer K Item) (x : Item) (e : Err)
    (h : append idOf slugOf c x = (c', some e)) : c' = c := by
  unfold append at h
  cases hs : dlookup c.item_slug_map (slugOf x) with
  | some k => rw [hs] at h; exact (Prod.mk.injEq .. ▸ h).1.symm
  | none => rw [hs] at h; simp at h

theorem append_sInv (c : ItemContainer K Item) (x : Item)
    (h : SInv c) (hid : idOf x ∉ keysOf c.items_by_id) :
    SInv (append idOf slugOf c x).1 ∧
      ∀ k ∈ keysOf (append idOf slugOf c x).1.items_by_id,
        k ∈ keysOf c.items_by_id ∨ k = idOf x := by
  obtain ⟨h1, h2, h3, h4, h5⟩ := h
  cases hs : dlookup c.item_slug_map (slugOf x) with
  | some k =>
      simp only [append, hs]
      exact ⟨⟨h1, h2, h3, h4, h5⟩, fun k hk => Or.inl hk⟩
  | none =>
      have hslug : slugOf x ∉ keysOf c.item_slug_map :=
        (dlookup_eq_none_iff _ _).mp hs
      have hi1 : dinsert c.items_by_id (idOf x) x
          = c.items_by_id ++ [(idOf x, x)] := dinsert_of_not_mem _ _ _ hid
      have hi2 : dinsert c.item_slug_map (slugOf x) (idOf x)
          = c.item_slug_map ++ [(slugOf x, idOf x)] :=
        dinsert_of_not_mem _ _ _ hslug
      simp only [append, hs, hi1, hi2]
      constructor
      · refine ⟨?_, ?_, ?_, ?_, ?_⟩
        · rw [keysOf_append, h1]; rfl
        · rw [keysOf_append]
          refine List.Nodup.append h2 (List.nodup_singleton _) ?_
          intro a ha hb
          rw [show keysOf [(idOf x, x)] = [idOf x] from rfl,
            List.mem_singleton] at hb
          rw [hb] at ha
          exact hid ha
        · rw [keysOf_append]
          refine List.Nodup.append h3 (List.nodup_singleton _) ?_
          intro a ha hb
          rw [show keysOf [(slugOf x, idOf x)] = [slugOf x] from rfl,
            List.mem_singleton] at hb
          rw [hb] at ha
          exact hslug ha
        · rw [List.length_append, List.length_append, h4]
          rfl
        · intro p hp
          rw [keysOf_append]
          rcases List.mem_append.mp hp with hp | hp
          · exact List.mem_append.mpr (Or.inl (h5 p hp))
          · rw [List.mem_singleton.mp hp]
            exact List.mem_append.mpr (Or.inr (List.mem_singleton.mpr rfl))
      · intro k hk
        rw [keysOf_append] at hk
        rcases List.mem_append.mp hk with hk | hk
        · exact Or.inl hk
        · exact Or.inr (List.mem_singleton.mp hk)

theorem extend_sInv :
    ∀ (xs : List Item) (c : ItemContainer K Item),
      SInv c → (∀ x ∈ xs, idOf x ∉ keysOf c.items_by_id) →
      (xs.map idOf).Nodup →
      SInv (extend idOf slugOf c xs).1 ∧
        ∀ k ∈ keysOf (extend idOf slugOf c xs).1.items_by_id,
          k ∈ keysOf c.items_by_id ∨ k ∈ xs.map idOf := by
  intro xs
  induction xs with
  | nil => intro c h _ _; exact ⟨h, fun k hk => Or.inl hk⟩
  | cons x rest ih =>
      intro c h hdisj hnd
      rw [List.map_cons, List.nodup_cons] at hnd
      have hid : idOf x ∉ keysOf c.items_by_id :=
        hdisj x (List.mem_cons_self x rest)
      have hstep := append_sInv idOf slugOf c x h hid
      rw [extend]
      cases happ : append idOf slugOf c x with
      | mk c' eo =>
          rw [happ] at hstep
          cases eo with
          | some e =>
              have hce : c' = c := append_err idOf slugOf c c' x e happ
              subst hce
              exact ⟨hstep.1, fun k hk => Or.inl hk⟩
          | none =>
              obtain ⟨hs', hsub'⟩ := hstep
              have hdisj' : ∀ y ∈ rest, idOf y ∉ keysOf c'.items_by_id := by
                intro y hy hmem
                rcases hsub' (idOf y) hmem with hin | heq
                · exact hdisj y (List.mem_cons_of_mem x hy) hin
                · exact hnd.1 (heq ▸ List.mem_map_of_mem idOf hy)
              obtain ⟨hrec, hsubr⟩ := ih c' hs' hdisj' hnd.2
              refine ⟨hrec, ?_⟩
              intro k hk
              rcases hsubr k hk with hk' | hk'
              · rcases hsub' k hk' with hin | heq
                · exact Or.inl hin
                · exact Or.inr (heq ▸ List.mem_cons_self _ _)
              · exact Or.inr (List.mem_cons_of_mem _ hk')

theorem runOp_sInv (c : ItemContainer K Item) (op : COp Item)
    (h : SInv c) (hdisj : ∀ x ∈ opItems op, idOf x ∉ keysOf c.items_by_id)
    (hnd : ((opItems op).map idOf).Nodup) :
    SInv (runOp idOf slugOf c op) ∧
      ∀ k ∈ keysOf (runOp idOf slugOf c op).items_by_id,
        k ∈ keysOf c.items_by_id ∨ k ∈ (opItems op).map idOf := by
  cases op with
  | appendOp x =>
      have := append_sInv idOf slugOf c x h
        (hdisj x (List.mem_cons_self x []))
      refine ⟨this.1, ?_⟩
      intro k hk
      rcases this.2 k hk with hk' | hk'
      · exact Or.inl hk'
      · exact Or.inr (by rw [hk']; exact List.mem_cons_self _ _)
  | extendOp xs => exact extend_sInv idOf slugOf xs c h hdisj hnd

theorem runOps_sInv :
    ∀ (ops : List (COp Item)) (c : ItemContainer K Item),
      SInv c → (∀ x ∈ opsItems ops, idOf x ∉ keysOf c.items_by_id) →
      ((opsItems ops).map idOf).Nodup →
      SInv (runOps idOf slugOf c ops) ∧
        ∀ k ∈ keysOf (runOps idOf slugOf c ops).items_by_id,
          k ∈ keysOf c.items_by_id ∨ k ∈ (opsItems ops).map idOf := by
  intro ops
  induction ops with
  | nil => intro c h _ _; exact ⟨h, fun k hk => Or.inl hk⟩
  | cons op rest ih =>
      intro c h hdisj hnd
      have hsplit : opsItems (op :: rest) = opItems op ++ opsItems rest := by
        simp [opsItems]
      rw [hsplit] at hdisj hnd
      rw [List.map_append, List.nodup_append] at hnd
      obtain ⟨hnd1, hnd2, hndd⟩ := hnd
      have hstep := runOp_sInv idOf slugOf c op h
        (fun x hx => hdisj x (List.mem_append.mpr (Or.inl hx))) hnd1
      obtain ⟨hs', hsub'⟩ := hstep
      have hdisj' : ∀ x ∈ opsItems rest,
          idOf x ∉ keysOf (runOp idOf slugOf c op).items_by_id := by
        intro x hx hmem
        rcases hsub' (idOf x) hmem with hin | hin
        · exact hdisj x (List.mem_append.mpr (Or.inr hx)) hin
        · exact hndd hin (List.mem_map_of_mem idOf hx)
      obtain ⟨hrec, hsubr⟩ := ih (runOp idOf slugOf c op) hs' hdisj' hnd2
      have hruns : runOps idOf slugOf c (op :: rest)
          = runOps idOf slugOf (runOp idOf slugOf c op) rest := rfl
      rw [hruns]
      refine ⟨hrec, ?_⟩
      intro k hk
      rcases hsubr k hk with hk' | hk'
      · rcases hsub' k hk' with hin | hin
        · exact Or.inl hin
        · rw [hsplit, List.map_append]
          exact Or.inr (List.mem_append.mpr (Or.inl hin))
      · rw [hsplit, List.map_append]
        exact Or.inr (List.mem_append.mpr (Or.inr hk'))

/-- On the success path the bulk-create loop body and `append` agree. -/
theorem createStep_eq_append (c c' : ItemContainer K Item) (x : Item)
    (h : createStep idOf slugOf c x = .ok c') :
    append idOf slugOf c x = (c', none) := by
  unfold createStep at h
  unfold append
  cases hs : dlookup c.item_slug_map (slugOf x) with
  | some k => rw [hs] at h; simp at h
  | none =>
      rw [hs] at h
      simp only [Except.ok.injEq] at h
      rw [← h]

theorem foldlM_createStep_extend :
    ∀ (data : List Item) (c c0 : ItemContainer K Item),
      data.foldlM (createStep idOf slugOf) c = .ok c0 →
      extend idOf slugOf c data = (c0, none) := by
  intro data
  induction data with
  | nil =>
      intro c c0 h
      simp only [List.foldlM, pure, Except.pure, Except.ok.injEq] at h
      rw [← h]; rfl
  | cons x rest ih =>
      intro c c0 h
      rw [List.foldlM_cons] at h
      cases hstep : createStep idOf slugOf c x with
      | error e =>
          rw [hstep] at h
          simp only [bind, Except.bind] at h
          exact Except.noConfusion h
      | ok c' =>
          rw [hstep] at h
          simp only [bind, Except.bind] at h
          rw [extend, createStep_eq_append idOf slugOf c c' x hstep]
          exact ih c' c0 h

/-- `create` succeeding is `extend` from the empty container with no
exception raised. -/
theorem create_ok_extend (data : List Item) (c0 : ItemContainer K Item)
    (h : create idOf slugOf data = .ok c0) :
    extend idOf slugOf emptyC data = (c0, none) :=
  foldlM_createStep_extend idOf slugOf data emptyC c0 h

/-- The exact state a successful `append` produces. -/
theorem append_ok_shape (c c' : ItemContainer K Item) (x : Item)
    (h : append idOf slugOf c x = (c', none)) :
    c' = ⟨dinsert c.items_by_id (idOf x) x,
          dinsert c.item_slug_map (slugOf x) (idOf x),
          c.item_indices ++ [idOf x]⟩ := by
  unfold append at h
  cases hs : dlookup c.item_slug_map (slugOf x) with
  | some k => rw [hs] at h; simp at h
  | none =>
      rw [hs] at h
      have := congrArg Prod.fst h
      exact this.symm

/-- The exact state a successful `extend` over items with fresh,
pairwise-distinct identity keys produces: all three structures grow at
the end, in input order. -/
theorem extend_ok_shape :
    ∀ (xs : List Item) (c c' : ItemContainer K Item),
      extend idOf slugOf c xs = (c', none) →
      (∀ x ∈ xs, idOf x ∉ keysOf c.items_by_id) →
      (xs.map idOf).Nodup →
      c'.items_by_id = c.items_by_id ++ xs.map (fun x => (idOf x, x))
        ∧ c'.item_indices = c.item_indices ++ xs.map idOf := by
  intro xs
  induction xs with
  | nil =>
      intro c c' h _ _
      have := congrArg Prod.fst h
      simp only [extend] at this
      rw [← this]
      exact ⟨(List.append_nil _).symm, (List.append_nil _).symm⟩
  | cons x rest ih =>
      intro c c' h hdisj hnd
      rw [List.map_cons, List.nodup_cons] at hnd
      rw [extend] at h
      cases happ : append idOf slugOf c x with
      | mk c2 eo =>
          rw [happ] at h
          cases eo with
          | some e => simp at h
          | none =>
              have hid : idOf x ∉ keysOf c.items_by_id :=
                hdisj x (List.mem_cons_self x rest)
              have hshape := append_ok_shape idOf slugOf c c2 x happ
              have hby : c2.items_by_id = c.items_by_id ++ [(idOf x, x)] := by
                rw [hshape, dinsert_of_not_mem _ _ _ hid]
              have hix : c2.item_indices = c.item_indices ++ [idOf x] := by
                rw [hshape]
              have hkeys2 : keysOf c2.items_by_id
                  = keysOf c.items_by_id ++ [idOf x] := by
                rw [hby, keysOf_append]; rfl
              have hdisj' : ∀ y ∈ rest, idOf y ∉ keysOf c2.items_by_id := by
                intro y hy hmem
                rw [hkeys2] at hmem
                rcases List.mem_append.mp hmem with hmem | hmem
                · exact hdisj y (List.mem_cons_of_mem x hy) hmem
                · rw [List.mem_singleton] at hmem
                  exact hnd.1 (hmem ▸ List.mem_map_of_mem idOf hy)
              obtain ⟨e1, e2⟩ := ih c2 c' h hdisj' hnd.2
              constructor
              · rw [e1, hby, List.append_assoc]; rfl
              · rw [e2, hix, List.append_assoc]; rfl

end ItemContainer

/-! ### Lookup in a freshly built identity store -/

theorem keysOf_pairmap {K Item : Type} (idOf : Item → K) (xs : List Item) :
    keysOf (xs.map (fun x => (idOf x, x))) = xs.map idOf := by
  rw [keysOf, List.map_map]; rfl

theorem dlookup_pairmap {K Item : Type} [DecidableEq K] (idOf : Item → K)
    (xs : List Item) (hnd : (xs.map idOf).Nodup) (y : Item) (hy : y ∈ xs) :
    dlookup (xs.map (fun x => (idOf x, x))) (idOf y) = some y := by
  have h := dlookup_eq_some_of_mem (xs.map (fun x => (idOf x, x)))
    (idOf y, y) (List.mem_map_of_mem _ hy)
  rw [keysOf_pairmap] at h
  exact h hnd

theorem pySlice_map {α β : Type} (f : α → β) (xs : List α) (a b : Int) :
    ItemList.pySlice (xs.map f) a b = (ItemList.pySlice xs a b).map f := by
  unfold ItemList.pySlice
  rw [List.length_map, ← List.map_take, ← List.map_drop]

theorem mapM_lookup_ok {K Item : Type} [DecidableEq K] (idOf : Item → K)
    (store : List (K × Item)) :
    ∀ (ys : List Item), (∀ y ∈ ys, dlookup store (idOf y) = some y) →
      List.mapM (fun id_ =>
          match dlookup store id_ with
          | some v => Except.ok v
          | none => Except.error Err.keyError) (ys.map idOf)
        = Except.ok ys := by
  intro ys
  induction ys with
  | nil => intro _; rfl
  | cons y rest ih =>
      intro hall
      rw [List.map_cons, List.mapM_cons, hall y (List.mem_cons_self y rest),
        ih (fun z hz => hall z (List.mem_cons_of_mem y hz))]
      rfl

/-! ### Claim theorems: the container component -/

/-- C2 counterexample. The claim asserts the three structures have
equal sizes after ANY sequence of bulkCreate/append/extend calls; but
the code never enforces identity-key uniqueness, so appending two items
with the same identity key `1` and distinct slugs (both appends
succeed) leaves one entry in the identity mapping against two ordered
identities and two slugs. -/
theorem c2_counterexample :
    ItemContainer.create (Prod.fst : Int × String → Int) Prod.snd []
      = .ok ItemContainer.emptyC
    ∧ ItemContainer.runOps Prod.fst Prod.snd
        (ItemContainer.emptyC : ItemContainer Int (Int × String))
        [ItemContainer.COp.appendOp (1, "a"), ItemContainer.COp.appendOp (1, "b")]
      = ⟨[(1, (1, "b"))], [("a", 1), ("b", 1)], [1, 1]⟩
    ∧ ¬ ItemContainer.Inv
        (ItemContainer.runOps Prod.fst Prod.snd
          (ItemContainer.emptyC : ItemContainer Int (Int × String))
          [ItemContainer.COp.appendOp (1, "a"),
           ItemContainer.COp.appendOp (1, "b")]) :=
  ⟨by decide, by decide, by decide⟩

/-- C2 (amended): after any sequence of bulkCreate/append/extend calls
whose items carry pairwise-distinct identity keys, the three co-located
structures have equal sizes, every ordered identity is present in the
identity mapping, and every slug resolves through `get_by_slug` to
exactly what `get_by_id` returns for its mapped (present) identity. -/
theorem c2_container_invariant {K Item : Type} [DecidableEq K]
    (idOf : Item → K) (slugOf : Item → String)
    (initItems : List Item) (ops : List (ItemContainer.COp Item))
    (hids : ((initItems ++ ItemContainer.opsItems ops).map idOf).Nodup)
    (c0 : ItemContainer K Item)
    (hc : ItemContainer.create idOf slugOf initItems = .ok c0) :
    ItemContainer.Inv (ItemContainer.runOps idOf slugOf c0 ops) := by
  have hext := ItemContainer.create_ok_extend idOf slugOf initItems c0 hc
  rw [List.map_append, List.nodup_append] at hids
  obtain ⟨hn1, hn2, hdisj⟩ := hids
  have hempty : ∀ x ∈ initItems,
      idOf x ∉ keysOf (ItemContainer.emptyC : ItemContainer K Item).items_by_id := by
    intro x _ hmem
    exact absurd hmem (List.not_mem_nil _)
  have h1 := ItemContainer.extend_sInv idOf slugOf initItems
    ItemContainer.emptyC ItemContainer.sInv_emptyC hempty hn1
  rw [hext] at h1
  obtain ⟨hs0, hsub0⟩ := h1
  have hd : ∀ x ∈ ItemContainer.opsItems ops,
      idOf x ∉ keysOf c0.items_by_id := by
    intro x hx hmem
    rcases hsub0 (idOf x) hmem with hin | hin
    · exact absurd hin (List.not_mem_nil _)
    · exact hdisj hin (List.mem_map_of_mem idOf hx)
  have h2 := ItemContainer.runOps_sInv idOf slugOf ops c0 hs0 hd hn2
  exact ItemContainer.sInv_to_inv _ h2.1

/-- Witness for C2: a bulk-created container grown by an append and an
extend, with distinct identity keys, satisfies the invariant. -/
theorem c2_container_invariant_witness :
    ((([((1 : Int), "a")] ++ ItemContainer.opsItems
        [ItemContainer.COp.appendOp ((2 : Int), "b"),
         ItemContainer.COp.extendOp [((3 : Int), "c")]]).map Prod.fst).Nodup
    ∧ ItemContainer.create (Prod.fst : Int × String → Int) Prod.snd
        [(1, "a")] = .ok ⟨[(1, (1, "a"))], [("a", 1)], [1]⟩)
    ∧ ItemContainer.Inv (ItemContainer.runOps Prod.fst Prod.snd
        (⟨[(1, (1, "a"))], [("a", 1)], [1]⟩ : ItemContainer Int (Int × String))
        [ItemContainer.COp.appendOp ((2 : Int), "b"),
         ItemContainer.COp.extendOp [((3 : Int), "c")]]) :=
  ⟨⟨by decide, by decide⟩,
   c2_container_invariant Prod.fst Prod.snd [(1, "a")]
     [ItemContainer.COp.appendOp ((2 : Int), "b"),
      ItemContainer.COp.extendOp [((3 : Int), "c")]]
     (by decide) ⟨[(1, (1, "a"))], [("a", 1)], [1]⟩ (by decide)⟩

/-- C3: appending an item whose slug is already in the slug mapping
fails with the fatal assertion and leaves the container unchanged (the
assert precedes every insertion); concretely, appending identities 1
then 2 with the same slug "foo" to a fresh container fails on the
second append, and the container still holds only the first item. -/
theorem c3_duplicate_slug_append :
    (∀ (K Item : Type) [DecidableEq K] (idOf : Item → K)
        (slugOf : Item → String) (c : ItemContainer K Item) (x : Item),
      slugOf x ∈ keysOf c.item_slug_map →
      ItemContainer.append idOf slugOf c x = (c, some Err.assertionError))
    ∧ ItemContainer.append (Prod.fst : Int × String → Int) Prod.snd
        ItemContainer.emptyC (1, "foo")
        = (⟨[(1, (1, "foo"))], [("foo", 1)], [1]⟩, none)
    ∧ ItemContainer.append (Prod.fst : Int × String → Int) Prod.snd
        ⟨[(1, (1, "foo"))], [("foo", 1)], [1]⟩ (2, "foo")
        = (⟨[(1, (1, "foo"))], [("foo", 1)], [1]⟩, some Err.assertionError) := by
  refine ⟨?_, by decide, by decide⟩
  intro K Item _ idOf slugOf c x h
  unfold ItemContainer.append
  cases hs : dlookup c.item_slug_map (slugOf x) with
  | some k => rfl
  | none =>
      rw [dlookup_eq_none_iff] at hs
      exact absurd h hs

/-- Witness for C3 at the concrete duplicate-slug append. -/
theorem c3_duplicate_slug_append_witness :
    Prod.snd ((2 : Int), "foo") ∈ keysOf [("foo", (1 : Int))]
    ∧ ItemContainer.append (Prod.fst : Int × String → Int) Prod.snd
        ⟨[(1, (1, "foo"))], [("foo", 1)], [1]⟩ (2, "foo")
        = (⟨[(1, (1, "foo"))], [("foo", 1)], [1]⟩, some Err.assertionError) :=
  ⟨by decide,
   c3_duplicate_slug_append.1 Int (Int × String) Prod.fst Prod.snd
     ⟨[(1, (1, "foo"))], [("foo", 1)], [1]⟩ (2, "foo") (by decide)⟩

/-- C7: the tolerant accessors return the caller-supplied default for
any identity key or slug not present (their return type `Item ⊕ D` has
no error outcome at all, so they cannot raise), while `get_by_index` at
an out-of-range position is the fatal `IndexError`. -/
theorem c7_lookup_miss_default :
    ∀ (K Item D : Type) [DecidableEq K] (c : ItemContainer K Item) (d : D),
      (∀ k, k ∉ keysOf c.items_by_id →
        ItemContainer.get_by_id c k d = .inr d)
      ∧ (∀ s, s ∉ keysOf c.item_slug_map →
        ItemContainer.get_by_slug c s d = .inr d)
      ∧ (∀ ix : Int,
          ((c.item_indices.length : Int) ≤ ix
            ∨ ix + (c.item_indices.length : Int) < 0) →
          ItemContainer.get_by_index c ix = .error Err.indexError) := by
  intro K Item D _ c d
  refine ⟨?_, ?_, ?_⟩
  · intro k hk
    unfold ItemContainer.get_by_id
    rw [(dlookup_eq_none_iff _ _).mpr hk]
  · intro s hs
    unfold ItemContainer.get_by_slug
    rw [(dlookup_eq_none_iff _ _).mpr hs]
  · intro ix hix
    unfold ItemContainer.get_by_index ItemContainer.pyIdx
    have h1 : ¬(0 ≤ ix ∧ ix < (c.item_indices.length : Int)) := by omega
    have h2 : ¬(ix < 0 ∧ 0 ≤ ix + (c.item_indices.length : Int)) := by omega
    rw [if_neg h1, if_neg h2]

/-- Witness for C7: a one-item container, a missing id, a missing slug
and an out-of-range position. -/
theorem c7_lookup_miss_default_witness :
    ((5 : Int) ∉ keysOf [((1 : Int), ((1 : Int), "a"))]
    ∧ ItemContainer.get_by_id
        (⟨[(1, (1, "a"))], [("a", 1)], [1]⟩ : ItemContainer Int (Int × String))
        5 "missing" = .inr "missing")
    ∧ (ItemContainer.get_by_slug
        (⟨[(1, (1, "a"))], [("a", 1)], [1]⟩ : ItemContainer Int (Int × String))
        "zzz" "missing" = .inr "missing")
    ∧ (ItemContainer.get_by_index
        (⟨[(1, (1, "a"))], [("a", 1)], [1]⟩ : ItemContainer Int (Int × String))
        3 = .error Err.indexError) :=
  ⟨⟨by decide,
    (c7_lookup_miss_default Int (Int × String) String
      ⟨[(1, (1, "a"))], [("a", 1)], [1]⟩ "missing").1 5 (by decide)⟩,
   (c7_lookup_miss_default Int (Int × String) String
      ⟨[(1, (1, "a"))], [("a", 1)], [1]⟩ "missing").2.1 "zzz" (by decide),
   (c7_lookup_miss_default Int (Int × String) String
      ⟨[(1, (1, "a"))], [("a", 1)], [1]⟩ "missing").2.2 3 (by decide)⟩

/-- C8 counterexample. The claim asserts position `i` returns the
(i+1)-th appended Record for any n appended items; but appending two
items with the same identity key 1 and distinct slugs (both appends
succeed) makes position 0 return the SECOND appended record, because
the second insert overwrote the first in the identity store. -/
theorem c8_counterexample :
    ItemContainer.extend (Prod.fst : Int × String → Int) Prod.snd
        ItemContainer.emptyC [(1, "a"), (1, "b")]
      = (⟨[(1, (1, "b"))], [("a", 1), ("b", 1)], [1, 1]⟩, none)
    ∧ ItemList.getitem_int
        (⟨[(1, (1, "b"))], [("a", 1), ("b", 1)], [1, 1]⟩ :
          ItemContainer Int (Int × String)) 0 = .ok (1, "b")
    ∧ ((1, "b") : Int × String) ≠ (1, "a") :=
  ⟨by decide, by decide, by decide⟩

/-- C8 (amended): for a list-variant container built by appending items
with pairwise-distinct identity keys (all appends succeeding),
positional indexing returns the (i+1)-th appended Record, slice
indexing returns the corresponding insertion-ordered Records, and
iteration follows insertion order; a map-variant container indexed by
an unknown identity key (any container, no hypotheses) raises the fatal
`KeyError`. -/
theorem c8_list_and_dict_indexing {K Item : Type} [DecidableEq K]
    (idOf : Item → K) (slugOf : Item → String) (xs : List Item)
    (c : ItemContainer K Item)
    (hc : ItemContainer.extend idOf slugOf ItemContainer.emptyC xs = (c, none))
    (hnd : (xs.map idOf).Nodup) :
    (∀ (i : Nat) (h : i < xs.length),
        ItemList.getitem_int c i = .ok (xs.get ⟨i, h⟩))
    ∧ (∀ a b : Int,
        ItemList.getitem_slice c a b = .ok (ItemList.pySlice xs a b))
    ∧ ItemList.iterList c = .ok xs
    ∧ (∀ (c' : ItemContainer K Item) (k : K), k ∉ keysOf c'.items_by_id →
        ItemDict.getitem c' k = .error Err.keyError) := by
  have hempty : ∀ x ∈ xs,
      idOf x ∉ keysOf (ItemContainer.emptyC : ItemContainer K Item).items_by_id := by
    intro x _ hmem
    exact absurd hmem (List.not_mem_nil _)
  obtain ⟨hby, hix⟩ :=
    ItemContainer.extend_ok_shape idOf slugOf xs ItemContainer.emptyC c hc
      hempty hnd
  rw [show (ItemContainer.emptyC : ItemContainer K Item).items_by_id = []
      from rfl, List.nil_append] at hby
  rw [show (ItemContainer.emptyC : ItemContainer K Item).item_indices = []
      from rfl, List.nil_append] at hix
  have hlookup : ∀ y ∈ xs, dlookup c.items_by_id (idOf y) = some y := by
    intro y hy
    rw [hby]
    exact dlookup_pairmap idOf xs hnd y hy
  refine ⟨?_, ?_, ?_, ?_⟩
  · intro i h
    unfold ItemList.getitem_int
    have hidx : ItemContainer.pyIdx c.item_indices (i : Int)
        = some (idOf (xs.get ⟨i, h⟩)) := by
      unfold ItemContainer.pyIdx
      rw [hix, List.length_map]
      rw [if_pos ⟨Int.ofNat_nonneg i, by exact_mod_cast h⟩]
      rw [Int.toNat_natCast, List.get?_map, List.get?_eq_get h]
      rfl
    simp only [hidx, hlookup _ (List.get_mem xs i _)]
  · intro a b
    unfold ItemList.getitem_slice
    rw [hix, pySlice_map]
    exact mapM_lookup_ok idOf c.items_by_id (ItemList.pySlice xs a b)
      (fun y hy => hlookup y (List.mem_of_mem_take (List.mem_of_mem_drop hy)))
  · unfold ItemList.iterList
    rw [hix]
    exact mapM_lookup_ok idOf c.items_by_id xs hlookup
  · intro c' k hk
    unfold ItemDict.getitem
    rw [(dlookup_eq_none_iff _ _).mpr hk]

/-- Witness for C8: three items with distinct identities; position 1 is
the second appended, the slice 0:2 is the first two in order, iteration
is insertion order, and an unknown key in a map-variant container is a
`KeyError`. -/
theorem c8_list_and_dict_indexing_witness :
    (ItemContainer.extend (Prod.fst : Int × String → Int) Prod.snd
        ItemContainer.emptyC [(10, "a"), (20, "b"), (30, "c")]
      = (⟨[(10, (10, "a")), (20, (20, "b")), (30, (30, "c"))],
          [("a", 10), ("b", 20), ("c", 30)], [10, 20, 30]⟩, none)
    ∧ (([((10 : Int), "a"), (20, "b"), (30, "c")].map Prod.fst).Nodup))
    ∧ ItemList.getitem_int
        (⟨[(10, (10, "a")), (20, (20, "b")), (30, (30, "c"))],
          [("a", 10), ("b", 20), ("c", 30)], [10, 20, 30]⟩ :
          ItemContainer Int (Int × String)) 1 = .ok (20, "b")
    ∧ ItemList.getitem_slice
        (⟨[(10, (10, "a")), (20, (20, "b")), (30, (30, "c"))],
          [("a", 10), ("b", 20), ("c", 30)], [10, 20, 30]⟩ :
          ItemContainer Int (Int × String)) 0 2 = .ok [(10, "a"), (20, "b")]
    ∧ ItemList.iterList
        (⟨[(10, (10, "a")), (20, (20, "b")), (30, (30, "c"))],
          [("a", 10), ("b", 20), ("c", 30)], [10, 20, 30]⟩ :
          ItemContainer Int (Int × String))
      = .ok [(10, "a"), (20, "b"), (30, "c")]
    ∧ ItemDict.getitem
        (⟨[(10, (10, "a")), (20, (20, "b")), (30, (30, "c"))],
          [("a", 10), ("b", 20), ("c", 30)], [10, 20, 30]⟩ :
          ItemContainer Int (Int × String)) 99 = .error Err.keyError := by
  have h := c8_list_and_dict_indexing (Prod.fst : Int × String → Int) Prod.snd
    [(10, "a"), (20, "b"), (30, "c")]
    ⟨[(10, (10, "a")), (20, (20, "b")), (30, (30, "c"))],
      [("a", 10), ("b", 20), ("c", 30)], [10, 20, 30]⟩
    (by decide) (by decide)
  exact ⟨⟨by decide, by decide⟩, h.1 1 (by decide), h.2.1 0 2, h.2.2.1,
    h.2.2.2 _ 99 (by decide)⟩

/-! ### Lemmas on field filtering -/

theorem allLookups_congr :
    ∀ (fields : List String) (data data' : Dict),
      (∀ f ∈ fields, dlookup data f = dlookup data' f) →
      allLookups fields data = allLookups fields data' := by
  intro fields
  induction fields with
  | nil => intro _ _ _; rfl
  | cons g rest ih =>
      intro data data' h
      unfold allLookups
      rw [List.mapM_cons, List.mapM_cons, h g (List.mem_cons_self g rest)]
      have := ih data data' (fun f hf => h f (List.mem_cons_of_mem g hf))
      unfold allLookups at this
      rw [this]

theorem allLookups_keys :
    ∀ (fields : List String) (data fvs : Dict),
      allLookups fields data = some fvs → keysOf fvs = fields := by
  intro fields
  induction fields with
  | nil =>
      intro data fvs h
      simp only [allLookups, List.mapM_nil, pure, Option.some.injEq] at h
      rw [← h]; rfl
  | cons g rest ih =>
      intro data fvs h
      unfold allLookups at h
      rw [List.mapM_cons] at h
      cases hg : dlookup data g with
      | none => rw [hg] at h; simp at h
      | some v =>
          cases hrest : List.mapM
              (fun f => (dlookup data f).map fun v => (f, v)) rest with
          | none => rw [hg, hrest] at h; simp at h
          | some rest' =>
              rw [hg, hrest] at h
              simp at h
              rw [← h, keysOf, List.map_cons]
              have := ih data rest' hrest
              rw [keysOf] at this
              rw [this]

theorem allLookups_none :
    ∀ (fields : List String) (data : Dict) (f : String),
      f ∈ fields → dlookup data f = none →
      allLookups fields data = none := by
  intro fields
  induction fields with
  | nil => intro data f hf _; exact absurd hf (List.not_mem_nil f)
  | cons g rest ih =>
      intro data f hf hnone
      unfold allLookups
      rw [List.mapM_cons]
      cases hg : dlookup data g with
      | none => rfl
      | some v =>
          have hfr : f ∈ rest := by
            rcases List.mem_cons.mp hf with he | hr
            · rw [he] at hnone; rw [hnone] at hg; exact Option.noConfusion hg
            · exact hr
          have := ih data f hfr hnone
          unfold allLookups at this
          rw [this]
          rfl

theorem allLookups_isSome :
    ∀ (fields : List String) (data : Dict),
      (∀ f ∈ fields, f ∈ keysOf data) →
      (allLookups fields data).isSome := by
  intro fields
  induction fields with
  | nil => intro _ _; rfl
  | cons g rest ih =>
      intro data h
      unfold allLookups
      rw [List.mapM_cons]
      have hg : (dlookup data g).isSome :=
        (dlookup_isSome_iff data g).mpr (h g (List.mem_cons_self g rest))
      cases hgl : dlookup data g with
      | none => rw [hgl] at hg; simp at hg
      | some v =>
          have hrec := ih data (fun f hf => h f (List.mem_cons_of_mem g hf))
          unfold allLookups at hrec
          cases hrest : List.mapM
              (fun f => (dlookup data f).map fun v => (f, v)) rest with
          | none => rw [hrest] at hrec; simp at hrec
          | some rest' => simp [hrest]

/-! ### Claim theorems: record construction from raw dicts -/

/-- C9: constructing a Record from a raw dict keeps exactly the
declared fields — the result is determined by the restriction of the
dict to the declared field names (so an undeclared key cannot affect
it), and any successfully constructed Record carries precisely the
declared field names. -/
theorem c9_extra_keys_dropped :
    (∀ (c : ClsName) (data data' : Dict),
        (∀ f ∈ fieldsOf c, dlookup data f = dlookup data' f) →
        JsonBase.create c data = JsonBase.create c data')
    ∧ (∀ (c : ClsName) (data : Dict) (v : PyVal),
        JsonBase.create c data = .ok v →
        ∃ fvs : Dict, v = .pyObj c fvs ∧ keysOf fvs = fieldsOf c) := by
  constructor
  · intro c data data' h
    unfold JsonBase.create JsonBase.filter_unused_data
    rw [allLookups_congr (fieldsOf c) data data' h]
  · intro c data v h
    unfold JsonBase.create JsonBase.filter_unused_data at h
    cases hall : allLookups (fieldsOf c) data with
    | none =>
        rw [hall] at h
        simp only [bind, Except.bind] at h
        exact Except.noConfusion h
    | some fvs =>
        rw [hall] at h
        simp only [bind, Except.bind] at h
        have hkeys := allLookups_keys (fieldsOf c) data fvs hall
        unfold mkCls at h
        have hcond : fvs.all (fun kv => (fieldsOf c).contains kv.1) = true := by
          rw [List.all_eq_true]
          intro kv hkv
          refine List.elem_eq_true_of_mem ?_
          rw [← hkeys]
          exact List.mem_map_of_mem Prod.fst hkv
        rw [if_pos hcond] at h
        have hsome : (allLookups (fieldsOf c) fvs).isSome := by
          apply allLookups_isSome
          intro f hf
          rw [hkeys]
          exact hf
        cases hall2 : allLookups (fieldsOf c) fvs with
        | none => rw [hall2] at hsome; simp at hsome
        | some fvs' =>
            rw [hall2] at h
            refine ⟨fvs', ?_, allLookups_keys (fieldsOf c) fvs fvs' hall2⟩
            exact (Except.ok.inj h).symm

/-- Witness for C9: a `PostTaxonomyRel` payload with an undeclared
`junk` key constructs the same Record as the clean payload, and the
constructed Record carries exactly the three declared fields. -/
theorem c9_extra_keys_dropped_witness :
    ((∀ f ∈ fieldsOf ClsName.postTaxonomyRel,
        dlookup rel0Extra f = dlookup rel0Clean f)
    ∧ JsonBase.create .postTaxonomyRel rel0Extra
        = JsonBase.create .postTaxonomyRel rel0Clean)
    ∧ (JsonBase.create .postTaxonomyRel rel0Extra
        = .ok (.pyObj .postTaxonomyRel rel0Clean)
    ∧ ∃ fvs : Dict, PyVal.pyObj .postTaxonomyRel rel0Clean = .pyObj .postTaxonomyRel fvs
        ∧ keysOf fvs = fieldsOf .postTaxonomyRel) :=
  ⟨⟨fun f hf => by fin_cases hf <;> rfl,
    c9_extra_keys_dropped.1 .postTaxonomyRel rel0Extra rel0Clean
      (fun f hf => by fin_cases hf <;> rfl)⟩,
   rfl,
   c9_extra_keys_dropped.2 .postTaxonomyRel rel0Extra
     (.pyObj .postTaxonomyRel rel0Clean) rfl⟩

/-- C10: constructing from a raw dict missing any declared field is a
fatal `KeyError` — the tolerance for extra keys does not extend to
missing ones. -/
theorem c10_missing_field_keyerror :
    ∀ (c : ClsName) (data : Dict) (f : String),
      f ∈ fieldsOf c → dlookup data f = none →
      JsonBase.create c data = .error Err.keyError := by
  intro c data f hf hnone
  unfold JsonBase.create JsonBase.filter_unused_data
  rw [allLookups_none (fieldsOf c) data f hf hnone]
  rfl

/-- Witness for C10: a `PostTaxonomyRel` payload missing `term_id`
fails with `KeyError`. -/
theorem c10_missing_field_keyerror_witness :
    "term_id" ∈ fieldsOf ClsName.postTaxonomyRel
    ∧ dlookup [("taxonomy", PyVal.pyStr "category")] "term_id" = none
    ∧ JsonBase.create .postTaxonomyRel [("taxonomy", PyVal.pyStr "category")]
        = .error Err.keyError :=
  ⟨by decide, rfl,
   c10_missing_field_keyerror .postTaxonomyRel
     [("taxonomy", PyVal.pyStr "category")] "term_id" (by decide) rfl⟩

/-! ### Claim theorems: the polymorphic codec -/

/-- C1 fails on the code: the round trip `decode(encode(x))` crashes
for any `PublishItemBase`, `Post` or `Media` value.  `encode` is
shallow, so the encoded dict still holds the live `Status` member in
its `status` entry; `PublishItemBase._deserialize` then calls
`decoder.decode` on that member unconditionally (unlike every sibling
override, which first tests `isinstance`), and `decode` evaluates
`'__class__' in d` on an enum member — a `TypeError`.  The theorem
evaluates the embedded code at a concrete populated `Post`. -/
theorem c1_post_roundtrip_fails :
    pyEncode (.pyObj .post post0Fields) = .ok (some (.pyDict post0Enc))
    ∧ pyDecode 9 (.pyDict post0Enc) = .error Err.typeError :=
  ⟨rfl, rfl⟩

/-- Round trips outside the `PublishItemBase` hierarchy do succeed, as
C1 claims: a populated `WpItem` decodes back to the original. -/
theorem wpItem_roundtrip :
    pyEncode (.pyObj .wpItem wp0Fields)
      = .ok (some (.pyDict
          (wp0Fields ++ [("__class__", .pyStr "pywp.api_objects.WpItem")])))
    ∧ pyDecode 9 (.pyDict
          (wp0Fields ++ [("__class__", .pyStr "pywp.api_objects.WpItem")]))
      = .ok (.pyObj .wpItem wp0Fields) :=
  ⟨rfl, rfl⟩

/-- A `Taxonomies` container (with its nested `Taxonomy` Record) also
round-trips through the codec. -/
theorem taxonomies_roundtrip :
    pyEncode (.pyObj .taxonomies taxs0Fields)
      = .ok (some (.pyDict
          (taxs0Fields ++ [("__class__", .pyStr "pywp.api_objects.Taxonomies")])))
    ∧ pyDecode 9 (.pyDict
          (taxs0Fields ++ [("__class__", .pyStr "pywp.api_objects.Taxonomies")]))
      = .ok (.pyObj .taxonomies taxs0Fields) :=
  ⟨rfl, rfl⟩

/-- Every `Status` member round-trips through the codec. -/
theorem status_roundtrip :
    ∀ s : StatusE,
      (pyEncode (.pyStatus s)).map (Option.map (pyDecode 1))
        = .ok (some (.ok (.pyStatus s))) := by
  intro s
  cases s <;> rfl

/-- C4: encoding an aware timestamp converts it to UTC and produces the
tagged dict whose value string is the second-precision, Z-suffixed
rendering of that UTC conversion; encoding a naive timestamp fails the
assertion; and the UTC timestamp 2024-03-01T12:00:00Z encodes to
exactly "2024-03-01T12:00:00Z" and decodes back to exactly
2024-03-01T12:00:00+00:00. -/
theorem c4_timestamp_encoding :
    (∀ dt : DateTime, dt.offMinutes = none →
        pyEncode (.pyDatetime dt) = .error Err.assertionError)
    ∧ (∀ (dt : DateTime) (o : Int), dt.offMinutes = some o →
        pyEncode (.pyDatetime dt)
          = .ok (some (.pyDict
              [("__class__", .pyStr "datetime.datetime"),
               ("value", .pyStr (strftimeZ (astimezoneUTC dt)))]))
        ∧ ∃ p : String, strftimeZ (astimezoneUTC dt) = p ++ "Z")
    ∧ (pyEncode (.pyDatetime dt2024)
        = .ok (some (.pyDict
            [("__class__", .pyStr "datetime.datetime"),
             ("value", .pyStr "2024-03-01T12:00:00Z")]))
       ∧ pyDecode 1 (.pyDict
            [("__class__", .pyStr "datetime.datetime"),
             ("value", .pyStr "2024-03-01T12:00:00Z")])
          = .ok (.pyDatetime dt2024)) := by
  refine ⟨?_, ?_, rfl, rfl⟩
  · intro dt h
    simp only [pyEncode, h]
  · intro dt o h
    exact ⟨by simp only [pyEncode, h], ⟨_, rfl⟩⟩

/-- Witness for C4: a naive timestamp is rejected, and a timestamp at
UTC offset +90 minutes encodes to the Z-suffixed rendering of its UTC
conversion. -/
theorem c4_timestamp_encoding_witness :
    (dtNaive.offMinutes = none
      ∧ pyEncode (.pyDatetime dtNaive) = .error Err.assertionError)
    ∧ (dtPlus90.offMinutes = some 90
      ∧ pyEncode (.pyDatetime dtPlus90)
          = .ok (some (.pyDict
              [("__class__", .pyStr "datetime.datetime"),
               ("value", .pyStr (strftimeZ (astimezoneUTC dtPlus90)))]))
      ∧ ∃ p : String, strftimeZ (astimezoneUTC dtPlus90) = p ++ "Z") :=
  ⟨⟨rfl, c4_timestamp_encoding.1 dtNaive rfl⟩,
   rfl, (c4_timestamp_encoding.2.1 dtPlus90 90 rfl).1,
   (c4_timestamp_encoding.2.1 dtPlus90 90 rfl).2⟩

/-- C5: a JSON object with no `__class__` key, or whose tag does not
resolve to any registered type, passes through `decode` unchanged
(whatever the fuel — these branches never recurse); concretely for
`{"foo": "bar"}` and an object tagged `nonexistent.Type`. -/
theorem c5_unknown_tag_passthrough :
    (∀ (xs : Dict) (fuel : Nat), dlookup xs "__class__" = none →
        pyDecode fuel (.pyDict xs) = .ok (.pyDict xs))
    ∧ (∀ (xs : Dict) (v : PyVal) (fuel : Nat),
        dlookup xs "__class__" = some v → strToClsV v = none →
        pyDecode fuel (.pyDict xs) = .ok (.pyDict xs))
    ∧ pyDecode 9 (.pyDict [("foo", .pyStr "bar")])
        = .ok (.pyDict [("foo", .pyStr "bar")])
    ∧ pyDecode 9 (.pyDict [("__class__", .pyStr "nonexistent.Type"),
          ("x", .pyInt 1)])
        = .ok (.pyDict [("__class__", .pyStr "nonexistent.Type"),
          ("x", .pyInt 1)]) := by
  refine ⟨?_, ?_, rfl, rfl⟩
  · intro xs fuel h
    simp only [pyDecode, h]
  · intro xs v fuel h1 h2
    simp only [pyDecode, h1, h2]

/-- Witness for C5 at the two concrete objects. -/
theorem c5_unknown_tag_passthrough_witness :
    (dlookup [("foo", PyVal.pyStr "bar")] "__class__" = none
      ∧ pyDecode 9 (.pyDict [("foo", .pyStr "bar")])
          = .ok (.pyDict [("foo", .pyStr "bar")]))
    ∧ (strToClsV (.pyStr "nonexistent.Type") = none
      ∧ pyDecode 9 (.pyDict [("__class__", .pyStr "nonexistent.Type"),
            ("x", .pyInt 1)])
          = .ok (.pyDict [("__class__", .pyStr "nonexistent.Type"),
            ("x", .pyInt 1)])) :=
  ⟨⟨rfl, c5_unknown_tag_passthrough.1 [("foo", .pyStr "bar")] 9 rfl⟩,
   rfl, c5_unknown_tag_passthrough.2.1
     [("__class__", .pyStr "nonexistent.Type"), ("x", .pyInt 1)]
     (.pyStr "nonexistent.Type") 9 rfl rfl⟩

/-- C6 counterexample. The claim requires the tag to match the type's
full identifier, any difference being fatal; but
`JsonBase._deserialize` compares only `clsname.split('.')[-1]` with the
qualname, so the foreign tag "foreign.WpItem" — different from
`WpItem`'s identifier "pywp.api_objects.WpItem" — is accepted and a
Record is produced. -/
theorem c6_counterexample :
    dlookup wpForeignTagged "__class__" = some (.pyStr "foreign.WpItem")
    ∧ "foreign.WpItem" ≠ identifier ClsName.wpItem
    ∧ deserJsonBase .wpItem wpForeignTagged = .ok (.pyObj .wpItem wp0Fields) :=
  ⟨rfl, by decide, rfl⟩

/-- C6 (amended): `fromTagged` reconstruction requires only the LAST
dot-separated component of the type-tag to equal the target type's
qualified class name: a tag whose last component differs is the fatal
assertion, while a tag with matching last component proceeds to
construction whatever its dotted prefix. -/
theorem c6_tag_last_component :
    ∀ (c : ClsName) (xs rest : Dict) (tag : String),
      dpop xs "__class__" = some (.pyStr tag, rest) →
      (lastComponent tag ≠ qualname c →
        deserJsonBase c xs = .error Err.assertionError)
      ∧ (lastComponent tag = qualname c →
        deserJsonBase c xs = mkCls c rest) := by
  intro c xs rest tag h
  constructor
  · intro hne
    simp only [deserJsonBase, h, if_neg hne]
  · intro heq
    simp only [deserJsonBase, h, if_pos heq]

/-- Witness for C6 (amended): a tag naming a different registered class
(`Taxonomy`) has a mismatching last component and is the fatal
assertion on `WpItem` reconstruction. -/
theorem c6_tag_last_component_witness :
    dpop wpWrongTagged "__class__"
        = some (.pyStr "pywp.api_objects.Taxonomy", wp0Fields)
    ∧ lastComponent "pywp.api_objects.Taxonomy" ≠ qualname ClsName.wpItem
    ∧ deserJsonBase .wpItem wpWrongTagged = .error Err.assertionError :=
  ⟨rfl, by decide,
   (c6_tag_last_component .wpItem wpWrongTagged wp0Fields
     "pywp.api_objects.Taxonomy" rfl).1 (by decide)⟩

end Pywp
